import Mathlib

/-! Shallow embedding of `src/etl_connector.py` (FilterLists ETL connector)
and verification of its specified properties.

JSON values returned by the API and stored in records are modelled by the
inductive type `Value`.  Python dictionaries are modelled as association
lists (`List (String × Value)`), which preserves insertion order the way
Python dicts do; Python `None` is `Value.null`.  Timestamps are abstracted
to natural numbers (the claims only ever compare timestamps for equality).
-/

namespace EtlConnector

/-- JSON-like values as used by the connector (Python objects decoded from
the API response: `None`, booleans, integers, strings, lists, dicts). -/
inductive Value : Type where
  | null : Value
  | bool : Bool → Value
  | int : Int → Value
  | str : String → Value
  | list : List Value → Value
  | dict : List (String × Value) → Value

/-- A raw record: one JSON object (Python dict) from an endpoint's response. -/
abbrev RawRecord := List (String × Value)

/-- Python `d.get(k)`: the value stored under `k`, or `None` when the key is
absent.  (A key stored with value `None` is indistinguishable from an absent
key, exactly as with `dict.get` in the source.) -/
def dictGet (d : RawRecord) (k : String) : Value :=
  match d.lookup k with
  | some v => v
  | none => Value.null

/-- Python truthiness of a `Value`, as used by the `or` on line 142 of the
source (`rec.get("id") or rec.get("_id")`). -/
def truthy : Value → Bool
  | .null => false
  | .bool b => b
  | .int n => n ≠ 0
  | .str s => ¬ s.isEmpty
  | .list vs => ¬ vs.isEmpty
  | .dict fs => ¬ fs.isEmpty

/-- Python `a or b`: `a` when `a` is truthy, otherwise `b`. -/
def pyOr (a b : Value) : Value :=
  if truthy a then a else b

/-- Membership test `v in [None, "", [], {}, "null"]` from line 137 of the
source (`clean_record`).  Python list membership compares with `==`, which
on this value universe holds exactly for the structurally equal value of the
same shape (no member of the list is `==`-equal to a value of another shape). -/
def droppedValue : Value → Bool
  | .null => true
  | .str s => s == "" || s == "null"
  | .list vs => vs.isEmpty
  | .dict fs => fs.isEmpty
  | _ => false

/-- Lines 136-137: `clean_record(d) = {k: v for k, v in d.items() if v not in
[None, "", [], {}, "null"]}`. -/
def clean_record (d : RawRecord) : RawRecord :=
  d.filter (fun kv => ! droppedValue kv.2)

end EtlConnector

namespace EtlConnector

/-- Line 23: `BASE_URL = os.getenv("BASE_URL", "https://api.filterlists.com")`
(default value; no claim concerns overriding it). -/
def BASE_URL : String := "https://api.filterlists.com"

/-- Line 26: `REQUEST_TIMEOUT = float(os.getenv("REQUEST_TIMEOUT", "10"))`.
The configured value is modelled as the already-parsed number; `none` models
an unset environment variable, in which case the default `10` is used. -/
def REQUEST_TIMEOUT_line26 (configured : Option Nat) : Nat :=
  configured.getD 10

/-- Line 72 (inside the pasted utilities block): `REQUEST_TIMEOUT = 10`.
This module-level assignment runs after line 26 and rebinds the global,
unconditionally, to `10`. -/
def REQUEST_TIMEOUT_line72 : Nat := 10

/-- The `timeout=REQUEST_TIMEOUT` argument that line 77 passes to
`session.get`: the module global named `REQUEST_TIMEOUT` at call time, which
is the line-72 binding (the later of the two module-level assignments),
independent of the configured value. -/
def timeout_used_by_safe_get_json (configured : Option Nat) : Nat :=
  REQUEST_TIMEOUT_line72

/-- The attempt loop of `safe_get_json` (lines 74-86).  `oracle i` is the
outcome of attempt number `i`: `some v` when the GET succeeds with decoded
JSON `v` (line 79 returns it), `none` when the attempt raises a
transport-level error (`Timeout` or any other `RequestException`, caught on
lines 80-83, after which the loop continues).  `remaining` counts attempts
still allowed; the loop `for attempt in range(3)` starts with 3. -/
def safe_get_json_loop (oracle : Nat → Option Value) : Nat → Nat → Value
  | _, 0 => Value.dict []
  | attempt, remaining + 1 =>
    match oracle attempt with
    | some v => v
    | none => safe_get_json_loop oracle (attempt + 1) remaining

/-- Lines 74-86: up to 3 attempts; on exhaustion logs an error and returns
`{}` (line 86).  The function always returns a value (every exception an
attempt can raise is caught inside the loop), so it is total. -/
def safe_get_json (oracle : Nat → Option Value) : Value :=
  safe_get_json_loop oracle 0 3

end EtlConnector

namespace EtlConnector

/-- Lines 104-116, the per-item body of the `/lists` loop: read
`item.get("id")`; when it is `None` (key absent or stored as `None`) keep the
item as-is; otherwise fetch the detail URL built from the identifier
(`detailFetch vid` models `safe_get_json(detail_url)` for `list_id = vid`)
and append `detail if detail is not None else item`. -/
def listsDetailStep (detailFetch : Value → Value) (item : RawRecord) : Value :=
  match dictGet item "id" with
  | .null => Value.dict item
  | vid =>
    match detailFetch vid with
    | .null => Value.dict item
    | d => d

/-- Lines 101-117: the `/lists` branch of `extract`.  `lists = data if
isinstance(data, list) else []` has already been applied, and the items of
that list are mappings (a non-mapping item would raise `AttributeError` at
`item.get` in the source; no claim concerns that case). -/
def extract_lists (lists : List RawRecord) (detailFetch : Value → Value) : List Value :=
  lists.map (listsDetailStep detailFetch)

/-- Lines 96-98 and 118-128: the shape handling of `extract` for every
endpoint other than `/lists`.  `None` data is reported and mapped to `[]`
(line 98); a list is returned as-is (line 121); a dict whose `"data"` key
holds a list yields that list, any other dict is wrapped in a singleton list
(lines 122-127); every other shape yields `[]` (line 128). -/
def extract_nonlists (data : Value) : List Value :=
  match data with
  | .null => []
  | .list items => items
  | .dict fields =>
    match fields.lookup "data" with
    | some (.list items) => items
    | _ => Value.dict fields :: []
  | _ => []

/-- The contents of a `/lists` item read as a mapping; `none` when the item
is not a mapping, in which case `item.get` on line 106 raises
`AttributeError` in the source. -/
def itemRecord : Value → Option RawRecord
  | .dict fields => some fields
  | _ => none

/-- Lines 90-128: `extract`.  `data` is the decoded JSON of the initial
fetch on line 95, `detailFetch vid` models the `safe_get_json(detail_url)`
call for `list_id = vid`.  Returns `none` exactly when the source raises
(`AttributeError` at `item.get` for a non-mapping `/lists` item, an error
that propagates to the caller); otherwise `some` of the returned list. -/
def extract (endpoint : String) (data : Value) (detailFetch : Value → Value) :
    Option (List Value) :=
  match data with
  | .null => some []
  | _ =>
    if endpoint = "/lists" then
      match data with
      | .list items =>
        (items.mapM itemRecord).map (fun recs => extract_lists recs detailFetch)
      | _ => some []
    else
      some (extract_nonlists data)

end EtlConnector

namespace EtlConnector

/-- Python `endpoint.strip("/")`: remove every leading and trailing `/`. -/
def stripSlashes (s : String) : String :=
  String.mk (((s.data.dropWhile (fun c => c == '/')).reverse.dropWhile
    (fun c => c == '/')).reverse)

/-- Python `.replace("/", "_")`: for a single-character pattern this is a
character map. -/
def replaceSep (s : String) : String :=
  String.mk (s.data.map (fun c => if c = '/' then '_' else c))

/-- Lines 190-195: `endpoint_to_collection`. -/
def endpoint_to_collection (endpoint : String) : String :=
  let name := replaceSep (stripSlashes endpoint)
  let name := if name = "" then "root" else name
  name ++ "_raw"

/-- Abstraction of `datetime.isoformat()` on the abstracted timestamps: any
function of the captured time (the claims only compare the results of equal
times). -/
def isoformat (t : Nat) : String := toString t

/-- The `source` sub-document built on lines 147-151. -/
structure SourceBlock where
  api_base : String
  endpoint : String
  retrieved_at : String

/-- One transformed document, lines 141-171.  The keys of the Python dict
`doc` become fields; the endpoint-specific flattened keys added on lines
156-171 are collected in `extras` in insertion order. -/
structure EnrichedDocument where
  _source_id : Value
  record_index : Nat
  endpoint : String
  ingestion_time : Nat
  schema_version : Nat
  source : SourceBlock
  data : RawRecord
  extras : List (String × Value)

/-- Lines 156-171: endpoint-specific flattening, reading from the cleaned
record `rec`. -/
def extras_for (endpoint : String) (rec : RawRecord) : List (String × Value) :=
  if endpoint = "/languages" then
    [("name", dictGet rec "name"), ("iso_code", dictGet rec "iso6391")]
  else if endpoint = "/licenses" then
    [("license_name", dictGet rec "name"), ("license_url", dictGet rec "url")]
  else if endpoint = "/maintainers" then
    [("maintainer_name", dictGet rec "name"), ("maintainer_url", dictGet rec "url")]
  else if endpoint = "/software" then
    [("software_name", dictGet rec "name"), ("software_home", dictGet rec "homeUrl")]
  else if endpoint = "/syntaxes" then
    [("syntax_name", dictGet rec "name")]
  else if endpoint = "/tags" then
    [("tag_name", dictGet rec "name")]
  else []

/-- Lines 140-171: the body of the transform loop for one record with index
`i`: clean the record, then build the envelope (`schema_version` is the
constant `1.0` in the source, modelled as `1`). -/
def transform_doc (endpoint : String) (now : Nat) (i : Nat) (recIn : RawRecord) :
    EnrichedDocument :=
  let cleaned := clean_record recIn
  { _source_id := pyOr (dictGet cleaned "id") (dictGet cleaned "_id")
    record_index := i
    endpoint := stripSlashes endpoint
    ingestion_time := now
    schema_version := 1
    source := { api_base := BASE_URL, endpoint := endpoint, retrieved_at := isoformat now }
    data := cleaned
    extras := extras_for endpoint cleaned }

/-- Lines 139-173: `for i, rec in enumerate(records, start=1)` appending one
document per record. -/
def transform_go (endpoint : String) (now : Nat) : Nat → List RawRecord →
    List EnrichedDocument
  | _, [] => []
  | i, r :: rs => transform_doc endpoint now i r :: transform_go endpoint now (i + 1) rs

/-- Lines 130-175: `transform(records, endpoint)`.  The single `now =
datetime.now().astimezone()` captured on line 134 is passed explicitly. -/
def transform (records : List RawRecord) (endpoint : String) (now : Nat) :
    List EnrichedDocument :=
  transform_go endpoint now 1 records

end EtlConnector

namespace EtlConnector

/-- The spec's droppable-value set, word for word: null, an empty string, an
empty sequence, an empty mapping, or the literal string "null" (used to
compare `clean_record` against the spec). -/
def specDroppable (v : Value) : Prop :=
  v = Value.null ∨ v = Value.str "" ∨ v = Value.list [] ∨ v = Value.dict []
    ∨ v = Value.str "null"

/-- The endpoint-to-collection mapping as the spec words it: strip leading
and trailing separators, replace internal separators with the underscore
joiner, use the default name "root" when stripping yields an empty name,
then append the "_raw" suffix. -/
def endpointToCollectionSpec (endpoint : String) : String :=
  let stripped := stripSlashes endpoint
  if stripped = "" then "root" ++ "_raw" else replaceSep stripped ++ "_raw"

/-- A heap of Python dict objects, used to state that `transform` does not
mutate its inputs.  Addresses are natural numbers; `next` is the next fresh
address, and in a well-formed heap every allocated address is below `next`. -/
structure Heap where
  objs : List (Nat × RawRecord)
  next : Nat

/-- The contents of the dict object at address `a`, when allocated. -/
def Heap.get (h : Heap) (a : Nat) : Option RawRecord :=
  h.objs.lookup a

/-- Allocate a fresh dict object with contents `r`: the heap after the
allocation together with the address of the new object. -/
def Heap.alloc (h : Heap) (r : RawRecord) : Heap × Nat :=
  (⟨(h.next, r) :: h.objs, h.next + 1⟩, h.next)

/-- Well-formedness: every allocated address is below `next`. -/
def Heap.wf (h : Heap) : Prop :=
  ∀ p ∈ h.objs, p.1 < h.next

/-- Heap-instrumented transform loop (lines 139-173): the input list holds
the addresses of the record dict objects.  Each iteration reads the record
object at address `a`, allocates the fresh dict built by the comprehension
of line 137 (`clean_record` returns a new dict and never writes through the
input reference), and emits the pure envelope of lines 141-171 together
with the address of the fresh dict that line 152 nests under `"data"`.  The
envelope dict `doc` is itself freshly created on line 141 and only written
through its own reference (lines 156-171), so it is kept as a pure value
here.  Reading an unallocated address defaults to `[]`; in the source every
element of `records` is a live dict object. -/
def transformH_go (endpoint : String) (now : Nat) :
    Heap → Nat → List Nat → Heap × List (EnrichedDocument × Nat)
  | h, _, [] => (h, [])
  | h, i, a :: as =>
    let recIn := (h.get a).getD []
    let h₁ := (h.alloc (clean_record recIn)).1
    let ca := (h.alloc (clean_record recIn)).2
    let res := transformH_go endpoint now h₁ (i + 1) as
    (res.1, (transform_doc endpoint now i recIn, ca) :: res.2)

/-- Heap-instrumented `transform` (lines 130-175): same iteration as
`transform`, starting at index 1, threading the heap. -/
def transformH (records : List Nat) (endpoint : String) (now : Nat) (h : Heap) :
    Heap × List (EnrichedDocument × Nat) :=
  transformH_go endpoint now h 1 records

end EtlConnector

namespace EtlConnector

/-- The attempt loop returns the empty mapping when every attempt in its
window fails. -/
theorem safe_get_json_loop_exhaust (oracle : Nat → Option Value) :
    ∀ (remaining attempt : Nat),
      (∀ i, attempt ≤ i → i < attempt + remaining → oracle i = none) →
      safe_get_json_loop oracle attempt remaining = Value.dict [] := by
  intro remaining
  induction remaining with
  | zero => intro attempt _; rfl
  | succ r ih =>
    intro attempt h
    have h0 : oracle attempt = none := h attempt (Nat.le_refl _) (by omega)
    simp only [safe_get_json_loop, h0]
    exact ih (attempt + 1) (fun i hi1 hi2 => h i (by omega) (by omega))

/-- The attempt loop only consults the attempts in its window. -/
theorem safe_get_json_loop_congr (oracle oracle₂ : Nat → Option Value) :
    ∀ (remaining attempt : Nat),
      (∀ i, attempt ≤ i → i < attempt + remaining → oracle i = oracle₂ i) →
      safe_get_json_loop oracle attempt remaining
        = safe_get_json_loop oracle₂ attempt remaining := by
  intro remaining
  induction remaining with
  | zero => intro attempt _; rfl
  | succ r ih =>
    intro attempt h
    have h0 : oracle attempt = oracle₂ attempt := h attempt (Nat.le_refl _) (by omega)
    simp only [safe_get_json_loop, h0]
    cases h2 : oracle₂ attempt with
    | some v => rfl
    | none => exact ih (attempt + 1) (fun i hi1 hi2 => h i (by omega) (by omega))

/-- C5: `safe_get_json` makes at most 3 attempts per call (its result only
depends on the outcomes of attempts 0, 1 and 2), and when every attempt
fails with a transport-level error it returns the empty mapping `{}`; it is
a total function, so no exception reaches the caller. -/
theorem safe_get_json_retry_exhaustion (oracle oracle₂ : Nat → Option Value) :
    ((∀ i, i < 3 → oracle i = oracle₂ i) → safe_get_json oracle = safe_get_json oracle₂)
    ∧ ((∀ i, i < 3 → oracle i = none) → safe_get_json oracle = Value.dict []) := by
  constructor
  · intro h
    exact safe_get_json_loop_congr oracle oracle₂ 3 0 (fun i _ h2 => h i (by omega))
  · intro h
    exact safe_get_json_loop_exhaust oracle 3 0 (fun i _ h2 => h i (by omega))

/-- Witness for C5 at the oracle whose every attempt fails. -/
theorem safe_get_json_retry_exhaustion_witness :
    safe_get_json (fun _ => none) = Value.dict [] :=
  (safe_get_json_retry_exhaustion (fun _ => none) (fun _ => none)).2 (fun _ _ => rfl)

/-- C2 (code bug): with the environment variable set to 5, line 26 computes
the configured value 5, with 10 only the default for an unset variable; but
the timeout that line 77 actually passes to the HTTP GET is the line-72
rebinding, which is always 10 and differs from the configured value. -/
theorem request_timeout_not_configurable :
    timeout_used_by_safe_get_json (some 5) = 10
    ∧ REQUEST_TIMEOUT_line26 (some 5) = 5
    ∧ REQUEST_TIMEOUT_line26 none = 10
    ∧ timeout_used_by_safe_get_json (some 5) ≠ REQUEST_TIMEOUT_line26 (some 5) := by
  refine ⟨rfl, rfl, rfl, ?_⟩
  intro h
  simp [timeout_used_by_safe_get_json, REQUEST_TIMEOUT_line72, REQUEST_TIMEOUT_line26] at h

/-- C1 (code bug): for the `/lists` item `{"id": 42, "name": "X"}`, when the
detail fetch is exhausted it returns the empty mapping `{}` (never `None`),
so line 114's `detail if detail is not None else item` keeps `{}` and the
output record is the empty mapping, not the original item; when the detail
fetch succeeds the output record is the detail result. -/
theorem lists_exhausted_detail_not_kept :
    extract "/lists"
      (Value.list [Value.dict [("id", Value.int 42), ("name", Value.str "X")]])
      (fun _ => Value.dict []) = some [Value.dict []]
    ∧ Value.dict [] ≠ Value.dict [("id", Value.int 42), ("name", Value.str "X")]
    ∧ extract "/lists"
      (Value.list [Value.dict [("id", Value.int 42), ("name", Value.str "X")]])
      (fun _ => Value.dict [("id", Value.int 42), ("url", Value.str "u")])
      = some [Value.dict [("id", Value.int 42), ("url", Value.str "u")]] := by
  refine ⟨rfl, ?_, rfl⟩
  intro h
  simp at h

/-- C3 counterexample: for the record `{"id": 0, "_id": 5}` the produced
`_source_id` is 5, the value under `_id`, not the present-but-falsy value 0
stored under `id`. -/
theorem source_id_falsy_id_counterexample :
    (transform [[("id", Value.int 0), ("_id", Value.int 5)]] "/tags" 0).map
      (fun d => d._source_id) = [Value.int 5]
    ∧ Value.int 5 ≠ Value.int 0 := by
  refine ⟨rfl, ?_⟩
  intro h
  simp at h

/-- C3 amended: `_source_id` is the cleaned record's `id` value when that
value is truthy, and otherwise the cleaned record's `_id` value (`dictGet`
is `null` for an absent key, so both "absent" cases yield null). -/
theorem source_id_amended (recIn : RawRecord) (endpoint : String) (now i : Nat) :
    (truthy (dictGet (clean_record recIn) "id") = true →
      (transform_doc endpoint now i recIn)._source_id
        = dictGet (clean_record recIn) "id")
    ∧ (truthy (dictGet (clean_record recIn) "id") = false →
      (transform_doc endpoint now i recIn)._source_id
        = dictGet (clean_record recIn) "_id") := by
  constructor <;> intro h <;> simp [transform_doc, pyOr, h]

/-- Witness for C3's amended claim at a record with a truthy `id`. -/
theorem source_id_amended_witness :
    (transform_doc "/tags" 0 1 [("id", Value.int 7), ("_id", Value.int 5)])._source_id
      = dictGet (clean_record [("id", Value.int 7), ("_id", Value.int 5)]) "id" :=
  (source_id_amended [("id", Value.int 7), ("_id", Value.int 5)] "/tags" 0 1).1 rfl

/-- Line 137's membership test agrees with the spec's droppable-value set. -/
theorem droppedValue_iff (v : Value) : droppedValue v = true ↔ specDroppable v := by
  cases v <;> simp [droppedValue, specDroppable]

/-- C4: `clean_record` keeps exactly the pairs whose value is outside the
spec's droppable set, each preserved unchanged and in order (the result is a
sublist of the input); the concrete conjunct shows cleaning is
non-recursive: a nested empty-like value inside a kept mapping survives. -/
theorem clean_record_drops_exactly_empty_like (d : RawRecord) (k : String) (v : Value) :
    ((k, v) ∈ clean_record d ↔ (k, v) ∈ d ∧ ¬ specDroppable v)
    ∧ (clean_record d).Sublist d
    ∧ clean_record [("a", Value.dict [("x", Value.null)]), ("b", Value.null)]
        = [("a", Value.dict [("x", Value.null)])] := by
  refine ⟨?_, List.filter_sublist d, rfl⟩
  rw [clean_record, List.mem_filter]
  constructor
  · rintro ⟨hm, hp⟩
    refine ⟨hm, ?_⟩
    rw [← droppedValue_iff]
    simpa using hp
  · rintro ⟨hm, hp⟩
    refine ⟨hm, ?_⟩
    rw [← droppedValue_iff] at hp
    simpa using hp

/-- Witness for C4 at a concrete record. -/
theorem clean_record_drops_exactly_empty_like_witness :
    clean_record [("a", Value.dict [("x", Value.null)]), ("b", Value.null)]
      = [("a", Value.dict [("x", Value.null)])] :=
  (clean_record_drops_exactly_empty_like [] "k" Value.null).2.2

/-- The indices assigned by the transform loop starting at `i` are the
contiguous sequence `i, i+1, ...` of the batch's length. -/
theorem transform_go_map_index (endpoint : String) (now : Nat) :
    ∀ (rs : List RawRecord) (i : Nat),
      (transform_go endpoint now i rs).map (fun d => d.record_index)
        = List.range' i rs.length := by
  intro rs
  induction rs with
  | nil => intro i; rfl
  | cons r rs ih =>
    intro i
    show (transform_doc endpoint now i r).record_index ::
        (transform_go endpoint now (i + 1) rs).map (fun d => d.record_index)
      = List.range' i (rs.length + 1)
    rw [List.range'_succ, ih (i + 1)]
    rfl

/-- Every document produced by the transform loop carries the single
captured `now` as its `ingestion_time` and its `retrieved_at`. -/
theorem transform_go_time (endpoint : String) (now : Nat) :
    ∀ (rs : List RawRecord) (i : Nat) (d : EnrichedDocument),
      d ∈ transform_go endpoint now i rs →
      d.ingestion_time = now ∧ d.source.retrieved_at = isoformat now := by
  intro rs
  induction rs with
  | nil => intro i d hd; cases hd
  | cons r rs ih =>
    intro i d hd
    simp only [transform_go, List.mem_cons] at hd
    rcases hd with h | h
    · subst h; exact ⟨rfl, rfl⟩
    · exact ih (i + 1) d h

/-- C6: the record indices of a transformed batch form the contiguous
1-based sequence `1..n` in input order, and every document of the batch
shares the one `now` captured per call as its `ingestion_time` and as its
`retrieved_at`. -/
theorem transform_index_and_shared_time (records : List RawRecord) (endpoint : String)
    (now : Nat) :
    (transform records endpoint now).map (fun d => d.record_index)
        = List.range' 1 records.length
    ∧ ∀ d ∈ transform records endpoint now,
        d.ingestion_time = now ∧ d.source.retrieved_at = isoformat now :=
  ⟨transform_go_map_index endpoint now records 1,
   fun d hd => transform_go_time endpoint now records 1 d hd⟩

/-- Witness for C6 at a two-record batch. -/
theorem transform_index_and_shared_time_witness :
    (transform [[("a", Value.int 1)], []] "/tags" 7).map (fun d => d.record_index)
        = [1, 2]
    ∧ (transform_doc "/tags" 7 1 [("a", Value.int 1)]).ingestion_time = 7 :=
  ⟨(transform_index_and_shared_time [[("a", Value.int 1)], []] "/tags" 7).1,
   ((transform_index_and_shared_time [[("a", Value.int 1)], []] "/tags" 7).2
      (transform_doc "/tags" 7 1 [("a", Value.int 1)])
      (List.mem_cons_self _ _)).1⟩

/-- The transform loop yields one document per record. -/
theorem transform_go_length (endpoint : String) (now : Nat) :
    ∀ (rs : List RawRecord) (i : Nat),
      (transform_go endpoint now i rs).length = rs.length := by
  intro rs
  induction rs with
  | nil => intro i; rfl
  | cons r rs ih =>
    intro i
    simp only [transform_go, List.length_cons, ih (i + 1)]

/-- C9: `transform` returns exactly one document per input record, for every
record list (empty and all-keys-cleaned records included) and endpoint. -/
theorem transform_length (records : List RawRecord) (endpoint : String) (now : Nat) :
    (transform records endpoint now).length = records.length :=
  transform_go_length endpoint now records 1

/-- C7: for every endpoint other than `/lists`, `extract` returns a list
as-is; the nested list under the `"data"` wrapper key of a mapping; a
singleton of any other mapping; and the empty list for every other shape
(null, booleans, numbers, strings). -/
theorem extract_other_endpoints_shapes (endpoint : String) (df : Value → Value)
    (h : endpoint ≠ "/lists") :
    (∀ items : List Value, extract endpoint (Value.list items) df = some items)
    ∧ (∀ fields items, fields.lookup "data" = some (Value.list items) →
        extract endpoint (Value.dict fields) df = some items)
    ∧ (∀ fields, (∀ items, fields.lookup "data" ≠ some (Value.list items)) →
        extract endpoint (Value.dict fields) df = some [Value.dict fields])
    ∧ extract endpoint Value.null df = some []
    ∧ (∀ b, extract endpoint (Value.bool b) df = some [])
    ∧ (∀ n, extract endpoint (Value.int n) df = some [])
    ∧ (∀ s, extract endpoint (Value.str s) df = some []) := by
  refine ⟨?_, ?_, ?_, rfl, ?_, ?_, ?_⟩
  · intro items
    simp [extract, extract_nonlists, h]
  · intro fields items hl
    simp [extract, extract_nonlists, h, hl]
  · intro fields hl
    cases hd : fields.lookup "data" with
    | none => simp [extract, extract_nonlists, h, hd]
    | some v =>
      cases v with
      | list items => exact absurd hd (hl items)
      | null => simp [extract, extract_nonlists, h, hd]
      | bool b => simp [extract, extract_nonlists, h, hd]
      | int n => simp [extract, extract_nonlists, h, hd]
      | str s => simp [extract, extract_nonlists, h, hd]
      | dict fs => simp [extract, extract_nonlists, h, hd]
  · intro b
    simp [extract, extract_nonlists, h]
  · intro n
    simp [extract, extract_nonlists, h]
  · intro s
    simp [extract, extract_nonlists, h]

/-- Witness for C7 for several shapes at the `/tags` endpoint. -/
theorem extract_other_endpoints_shapes_witness :
    extract "/tags" (Value.list [Value.int 1]) (fun _ => Value.null) = some [Value.int 1]
    ∧ extract "/tags" (Value.dict [("data", Value.list [Value.int 2])]) (fun _ => Value.null)
        = some [Value.int 2]
    ∧ extract "/tags" (Value.str "x") (fun _ => Value.null) = some [] :=
  ⟨(extract_other_endpoints_shapes "/tags" (fun _ => Value.null) (by decide)).1 [Value.int 1],
   (extract_other_endpoints_shapes "/tags" (fun _ => Value.null) (by decide)).2.1
     [("data", Value.list [Value.int 2])] [Value.int 2] rfl,
   (extract_other_endpoints_shapes "/tags" (fun _ => Value.null) (by decide)).2.2.2.2.2.2 "x"⟩

/-- The character-map replacement yields the empty string only on the empty
string. -/
theorem replaceSep_eq_empty_iff (s : String) : replaceSep s = "" ↔ s = "" := by
  rw [String.ext_iff, String.ext_iff]
  show s.data.map _ = ([] : List Char) ↔ s.data = []
  simp

/-- C8: `endpoint_to_collection` computes exactly the spec's mapping (strip
separators, replace internal separators with the underscore joiner, default
empty names to "root", append the "_raw" suffix), with the spec's concrete
cases. -/
theorem endpoint_to_collection_spec (endpoint : String) :
    endpoint_to_collection endpoint = endpointToCollectionSpec endpoint
    ∧ endpoint_to_collection "/tags" = "tags_raw"
    ∧ endpoint_to_collection "/" = "root_raw"
    ∧ endpoint_to_collection "" = "root_raw"
    ∧ endpoint_to_collection "/a/b/" = "a_b_raw" := by
  refine ⟨?_, rfl, rfl, rfl, rfl⟩
  show (if replaceSep (stripSlashes endpoint) = "" then "root"
        else replaceSep (stripSlashes endpoint)) ++ "_raw"
      = if stripSlashes endpoint = "" then "root" ++ "_raw"
        else replaceSep (stripSlashes endpoint) ++ "_raw"
  by_cases hs : stripSlashes endpoint = ""
  · rw [if_pos hs, hs]
    rfl
  · rw [if_neg hs, if_neg (fun hr => hs ((replaceSep_eq_empty_iff _).mp hr))]

/-- Allocation does not change the contents of any other address. -/
theorem Heap.get_alloc (h : Heap) (r : RawRecord) (a : Nat) (ha : a ≠ h.next) :
    ((h.alloc r).1).get a = h.get a := by
  have hb : (a == h.next) = false := beq_eq_false_iff_ne.mpr ha
  simp [Heap.alloc, Heap.get, List.lookup, hb]

/-- Allocation preserves heap well-formedness. -/
theorem Heap.wf_alloc (h : Heap) (r : RawRecord) (hwf : h.wf) : ((h.alloc r).1).wf := by
  intro p hp
  simp only [Heap.alloc] at hp ⊢
  rcases List.mem_cons.mp hp with h1 | h1
  · subst h1; omega
  · have := hwf p h1; omega

/-- Invariants of the heap-instrumented transform loop: it preserves
well-formedness, never lowers `next`, leaves the contents of every
previously allocated address untouched, and every emitted `"data"` address
is fresh with respect to the initial heap. -/
theorem transformH_go_spec (endpoint : String) (now : Nat) :
    ∀ (addrs : List Nat) (h : Heap) (i : Nat), h.wf →
      (transformH_go endpoint now h i addrs).1.wf
      ∧ h.next ≤ (transformH_go endpoint now h i addrs).1.next
      ∧ (∀ a, a < h.next → (transformH_go endpoint now h i addrs).1.get a = h.get a)
      ∧ (∀ p ∈ (transformH_go endpoint now h i addrs).2, h.next ≤ p.2) := by
  intro addrs
  induction addrs with
  | nil =>
    intro h i hwf
    exact ⟨hwf, Nat.le_refl _, fun a _ => rfl, by intro p hp; cases hp⟩
  | cons a as ih =>
    intro h i hwf
    have hwf₁ : ((h.alloc (clean_record ((h.get a).getD []))).1).wf :=
      Heap.wf_alloc h _ hwf
    obtain ⟨w1, w2, w3, w4⟩ :=
      ih (h.alloc (clean_record ((h.get a).getD []))).1 (i + 1) hwf₁
    have hnext₁ : ((h.alloc (clean_record ((h.get a).getD []))).1).next = h.next + 1 := rfl
    refine ⟨w1, ?_, ?_, ?_⟩
    · show h.next ≤ (transformH_go endpoint now
        (h.alloc (clean_record ((h.get a).getD []))).1 (i + 1) as).1.next
      omega
    · intro b hb
      have hb1 : b < ((h.alloc (clean_record ((h.get a).getD []))).1).next := by omega
      calc (transformH_go endpoint now h i (a :: as)).1.get b
          = ((h.alloc (clean_record ((h.get a).getD []))).1).get b := w3 b hb1
        _ = h.get b := Heap.get_alloc h _ b (by omega)
    · intro p hp
      have hp' : p = (transform_doc endpoint now i ((h.get a).getD []),
            (h.alloc (clean_record ((h.get a).getD []))).2)
          ∨ p ∈ (transformH_go endpoint now
            (h.alloc (clean_record ((h.get a).getD []))).1 (i + 1) as).2 :=
        List.mem_cons.mp hp
      rcases hp' with h1 | h1
      · subst h1; exact Nat.le_refl _
      · have := w4 p h1; omega

/-- C10: `transform` does not mutate its inputs.  In the heap-instrumented
model the contents of every dict object allocated before the call (the
input records among them) are unchanged afterwards, and the fresh dict each
envelope nests under `"data"` lives at an address distinct from every input
record's address — the envelope nests the fresh cleaned mapping, never the
original record. -/
theorem transform_no_input_mutation (records : List Nat) (endpoint : String)
    (now : Nat) (h : Heap) (hwf : h.wf) :
    (∀ a, a < h.next → (transformH records endpoint now h).1.get a = h.get a)
    ∧ (∀ p ∈ (transformH records endpoint now h).2,
        ∀ a ∈ records, a < h.next → p.2 ≠ a) := by
  obtain ⟨_, _, w3, w4⟩ := transformH_go_spec endpoint now records h 1 hwf
  refine ⟨w3, ?_⟩
  intro p hp a _ ha
  have := w4 p hp
  omega

/-- Witness for C10 at a one-record heap. -/
theorem transform_no_input_mutation_witness :
    (transformH [0] "/tags" 7 ⟨[(0, [("x", Value.null)])], 1⟩).1.get 0
      = Heap.get ⟨[(0, [("x", Value.null)])], 1⟩ 0 :=
  (transform_no_input_mutation [0] "/tags" 7 ⟨[(0, [("x", Value.null)])], 1⟩
    (by intro p hp; rw [List.mem_singleton] at hp; subst hp; decide)).1 0 (by decide)

end EtlConnector
